import Mathlib

set_option maxHeartbeats 1000000

/-!
Shallow embedding of the school-directory application (src/school.tsx):
the validation engine (validateForm), the filter engine (filteredSchools,
uniqueValues, getSuggestions), the image-upload gate (handleImageChange),
the submission handler (handleSubmit) and the persistence gateway's append
operation (mockAPI.addSchool).  JavaScript strings are modelled as Lean
strings operated on through their character lists.
-/

/-- Model of JS String.prototype.toLowerCase, applied character-wise
(Char.toLower, which covers the ASCII range the records use). -/
def jsToLower (s : String) : String := String.mk (s.toList.map Char.toLower)

/-- Truthiness test of the JS expression !s.trim(): true exactly when the
string trims to the empty string, i.e. every character is whitespace. -/
def isBlank (s : String) : Bool := s.toList.all Char.isWhitespace

/-- Model of JS hay.includes(sub): sub occurs contiguously in hay. -/
def jsIncludes (hay sub : String) : Bool :=
  (List.range (hay.toList.length + 1)).any
    (fun i => sub.toList.isPrefixOf (hay.toList.drop i))

/-- Model of JS s.startsWith(pre). -/
def jsStartsWith (s pre : String) : Bool := pre.toList.isPrefixOf s.toList

/-- Test of the regex /^\d{10}$/ used on the contact field: exactly ten
characters, each a decimal digit. -/
def isTenDigits (s : String) : Bool :=
  s.toList.length == 10 && s.toList.all Char.isDigit

/-- A character admitted by the class [^\s@] of the email regex:
neither whitespace nor the at sign. -/
def charOk (c : Char) : Bool := !c.isWhitespace && !(c == '@')

/-- Test of the email regex /^[^\s@]+@[^\s@]+\.[^\s@]+$/.  A string matches
exactly when it decomposes as local ++ "@" ++ mid ++ "." ++ tld with the
three parts non-empty and every character of them in [^\s@]; the test
searches over the position i of the "@" and the position j of the chosen
".", which is the set of decompositions regex backtracking explores. -/
def emailRegexTest (s : String) : Bool :=
  let cs := s.toList
  (List.range cs.length).any fun i =>
    (List.range cs.length).any fun j =>
      decide (0 < i) && decide (i + 1 < j) && decide (j + 1 < cs.length) &&
      (cs.getD i 'a' == '@') && (cs.getD j 'a' == '.') &&
      (cs.take i).all charOk &&
      ((cs.drop (i + 1)).take (j - (i + 1))).all charOk &&
      (cs.drop (j + 1)).all charOk

/-- The SchoolBase record type of src/school.tsx (image: string | null). -/
structure SchoolBase where
  name : String
  address : String
  city : String
  state : String
  contact : String
  email_id : String
  image : Option String
deriving DecidableEq

/-- The School record type: SchoolBase plus id and createdAt. -/
structure School extends SchoolBase where
  id : Nat
  createdAt : String
deriving DecidableEq

/-- The three-field filter record { name, city, state } kept in the
filters / tempFilters state of ShowSchools. -/
structure FilterState where
  name : String
  city : String
  state : String
deriving DecidableEq

/-- The field key type 'name' | 'city' | 'state' of the filter engine. -/
inductive FilterField where
  | name
  | city
  | state
deriving DecidableEq

/-- Field access s[field] on a school record for a filter field. -/
def School.fieldVal (s : School) : FilterField → String
  | .name => s.name
  | .city => s.city
  | .state => s.state

/-- Field access f[field] on a FilterState. -/
def FilterState.fieldVal (f : FilterState) : FilterField → String
  | .name => f.name
  | .city => f.city
  | .state => f.state

/-- Functional update of one field of a FilterState. -/
def FilterState.setField (f : FilterState) : FilterField → String → FilterState
  | .name, v => { f with name := v }
  | .city, v => { f with city := v }
  | .state, v => { f with state := v }

/-- The filteredSchools memo of ShowSchools: starting from the full list,
each of the three committed filters whose text does not trim to empty
refines the list by a case-insensitive substring test against the
untrimmed filter text. -/
def filteredSchools (schools : List School) (filters : FilterState) : List School :=
  let filtered := schools
  let filtered := if isBlank filters.name then filtered
    else filtered.filter (fun s => jsIncludes (jsToLower s.name) (jsToLower filters.name))
  let filtered := if isBlank filters.city then filtered
    else filtered.filter (fun s => jsIncludes (jsToLower s.city) (jsToLower filters.city))
  let filtered := if isBlank filters.state then filtered
    else filtered.filter (fun s => jsIncludes (jsToLower s.state) (jsToLower filters.state))
  filtered

/-- The per-record matching predicate the code's sequential filtering
amounts to: a filter field that trims to empty imposes no constraint,
otherwise the record's field must contain the untrimmed filter text
case-insensitively; the three are conjoined. -/
def matchPred (filters : FilterState) (s : School) : Bool :=
  ((isBlank filters.name || jsIncludes (jsToLower s.name) (jsToLower filters.name)) &&
   (isBlank filters.city || jsIncludes (jsToLower s.city) (jsToLower filters.city))) &&
  (isBlank filters.state || jsIncludes (jsToLower s.state) (jsToLower filters.state))

/-- Spec-side predicate, following the claim's words: every non-EMPTY
filter field (rather than every field with non-whitespace content)
constrains the record by the case-insensitive substring test. -/
def claimMatch (filters : FilterState) (s : School) : Bool :=
  ((filters.name == "" || jsIncludes (jsToLower s.name) (jsToLower filters.name)) &&
   (filters.city == "" || jsIncludes (jsToLower s.city) (jsToLower filters.city))) &&
  (filters.state == "" || jsIncludes (jsToLower s.state) (jsToLower filters.state))

/-- Spec-side matching function built from claimMatch. -/
def claimFilteredSchools (schools : List School) (filters : FilterState) : List School :=
  schools.filter (claimMatch filters)

/-- One step of JS Set insertion (new Set(arr) keeps the first occurrence
of each value, in insertion order). -/
def insertSeen (acc : List String) (x : String) : List String :=
  if x ∈ acc then acc else acc ++ [x]

/-- The uniqueValues memo for one field: Array.from(new Set(schools.map(s
=> s[field]))) — the distinct values of that field over the record set, in
first-seen order. -/
def uniqueValues (schools : List School) (fld : FilterField) : List String :=
  (schools.map (fun s => s.fieldVal fld)).foldl insertSeen []

/-- The getSuggestions callback: lowercase the draft text of the field;
if it is empty return no suggestions, otherwise keep the distinct field
values whose lowercase form starts with it and take the first five. -/
def getSuggestions (schools : List School) (tempFilters : FilterState)
    (fld : FilterField) : List String :=
  if (jsToLower (tempFilters.fieldVal fld)).toList.isEmpty then []
  else ((uniqueValues schools fld).filter
    (fun item => jsStartsWith (jsToLower item) (jsToLower (tempFilters.fieldVal fld)))).take 5

/-- The mockAPI.addSchool gateway operation: the new record gets id =
(number of stored records) + 1 and createdAt = the current timestamp (a
parameter here; new Date().toISOString() in the code), the SchoolBase
fields are spread unchanged, and the record is appended to the store.
Returns the new record and the updated store. -/
def mockAPI.addSchool (stored : List School) (now : String)
    (schoolData : SchoolBase) : School × List School :=
  let newSchool : School :=
    { toSchoolBase := schoolData, id := stored.length + 1, createdAt := now }
  (newSchool, stored ++ [newSchool])

/-- The FormErrors record: one optional message per field plus the
non-field submit slot; a key absent from the JS object is none. -/
structure FormErrors where
  name : Option String
  address : Option String
  city : Option String
  state : Option String
  contact : Option String
  email_id : Option String
  image : Option String
  submit : Option String
deriving DecidableEq

/-- The empty error object {}. -/
def emptyErrors : FormErrors :=
  ⟨none, none, none, none, none, none, none, none⟩

/-- Object.keys(e).length === 0 : no error key is present. -/
def FormErrors.noKeys (e : FormErrors) : Bool :=
  e.name.isNone && e.address.isNone && e.city.isNone && e.state.isNone &&
  e.contact.isNone && e.email_id.isNone && e.image.isNone && e.submit.isNone

def nameRequiredMsg : String := "School name is required"

def addressRequiredMsg : String := "Address is required"

def cityRequiredMsg : String := "City is required"

def stateRequiredMsg : String := "State is required"

def contactRequiredMsg : String := "Contact number is required"

def contactFormatMsg : String := "Contact must be 10 digits"

def emailRequiredMsg : String := "Email is required"

def emailFormatMsg : String := "Invalid email format"

def imageRequiredMsg : String := "School image is required"

def tooLargeMsg : String := "Image size must be less than 5MB"

def submitFailedMsg : String := "Failed to add school. Please try again."

/-- Truthiness of !formData.image for image : string | null — true when
the image is null or the empty string. -/
def imageFalsy : Option String → Bool
  | none => true
  | some s => s.toList.isEmpty

/-- The validateForm pass of AddSchoolForm: the newErrors object it
builds.  Every rule is evaluated independently. -/
def validateForm (fd : SchoolBase) : FormErrors where
  name := if isBlank fd.name then some nameRequiredMsg else none
  address := if isBlank fd.address then some addressRequiredMsg else none
  city := if isBlank fd.city then some cityRequiredMsg else none
  state := if isBlank fd.state then some stateRequiredMsg else none
  contact :=
    if isBlank fd.contact then some contactRequiredMsg
    else if isTenDigits fd.contact then none
    else some contactFormatMsg
  email_id :=
    if isBlank fd.email_id then some emailRequiredMsg
    else if emailRegexTest fd.email_id then none
    else some emailFormatMsg
  image := if imageFalsy fd.image then some imageRequiredMsg else none
  submit := none

/-- The state of AddSchoolForm relevant to the claims: the form data, the
error object and the preview. -/
structure FormState where
  formData : SchoolBase
  errors : FormErrors
  imagePreview : Option String
deriving DecidableEq

/-- The handleImageChange callback for a selected file of the given size:
a file strictly larger than 5,000,000 bytes only sets the image error
and returns; otherwise the read payload (the data URL the FileReader
produces) is stored as preview and as formData.image, and the image
error key is set to the empty string. -/
def handleImageChange (fileSize : Nat) (payload : String) (st : FormState) : FormState :=
  if 5000000 < fileSize then
    { st with errors := { st.errors with image := some tooLargeMsg } }
  else
    { st with
        imagePreview := some payload,
        formData := { st.formData with image := some payload },
        errors := { st.errors with image := some ("") } }

/-- The handleSubmit callback.  validateForm stores its newErrors object
and submission stops when a key is present; otherwise the gateway append
runs, and when it fails the catch replaces the whole error object by
{ submit: ... }.  gatewayFails says whether mockAPI.addSchool threw. -/
def handleSubmit (gatewayFails : Bool) (st : FormState) : FormState :=
  let newErrors := validateForm st.formData
  let st1 := { st with errors := newErrors }
  if newErrors.noKeys then
    if gatewayFails then
      { st1 with errors := { emptyErrors with submit := some submitFailedMsg } }
    else st1
  else st1

/-- A concrete school record used by the concrete instances below. -/
def demoSchool : School :=
  { name := "ab", address := "1 Main St", city := "Austin", state := "TX",
    contact := "0123456789", email_id := "a@b.c", image := none,
    id := 1, createdAt := "2024-01-01T00:00:00.000Z" }

/-- A concrete valid form-data record. -/
def demoBase : SchoolBase :=
  { name := "Oak Hill", address := "1 Main St", city := "Austin", state := "TX",
    contact := "0123456789", email_id := "info@oakhill.edu",
    image := some ("data:image/png;base64,AAAA") }

lemma isBlank_nil : isBlank ("") = true := rfl

lemma one_stage_eq (t : String) (p : School → Bool) (l : List School) :
    (if isBlank t then l else l.filter p) = l.filter (fun s => isBlank t || p s) := by
  cases h : isBlank t
  · simp [h]
  · simp [h]

/-- The sequential conditional filtering of filteredSchools is one stable
filter by the conjunctive predicate matchPred. -/
lemma filteredSchools_eq_filter (schools : List School) (f : FilterState) :
    filteredSchools schools f = schools.filter (matchPred f) := by
  unfold filteredSchools matchPred
  cases hn : isBlank f.name <;> cases hc : isBlank f.city <;> cases hs : isBlank f.state <;>
    simp [hn, hc, hs, List.filter_filter, Bool.and_comm, Bool.and_left_comm, Bool.and_assoc]

lemma length_filter_mono {α : Type} (l : List α) (p q : α → Bool)
    (h : ∀ a, p a = true → q a = true) :
    (l.filter p).length ≤ (l.filter q).length := by
  induction l with
  | nil => simp
  | cons a t ih =>
    cases hp : p a
    · cases hq : q a
      · simpa [List.filter_cons, hp, hq] using ih
      · simp only [List.filter_cons, hp, hq, List.length_cons]
        exact Nat.le_succ_of_le ih
    · have hq : q a = true := h a hp
      simp only [List.filter_cons, hp, hq, List.length_cons]
      exact Nat.succ_le_succ ih

/-- C1 counterexample: with the committed filter { name: " ", city: "",
state: "" } the code ignores the whitespace-only name filter and returns
the record named "ab", while the claim's reading (every non-empty filter
field constrains) would demand that "ab" contain " " and so exclude it. -/
theorem c1_counterexample :
    filteredSchools [demoSchool] ⟨" ", "", ""⟩ ≠
      claimFilteredSchools [demoSchool] ⟨" ", "", ""⟩ := by decide

/-- C1 (amended): for every record sequence and committed FilterState,
the matching function is the stable filter by the conjunction of the
three per-field tests, where a filter field whose text trims to empty
(empty or whitespace-only, rather than merely empty) imposes no
constraint and any other filter field requires the record's field to
contain the untrimmed filter text as a case-insensitive substring; the
result is a subsequence of the input, in input order. -/
theorem c1_filteredSchools_characterization (schools : List School) (f : FilterState) :
    filteredSchools schools f = schools.filter (matchPred f) ∧
    (filteredSchools schools f).Sublist schools := by
  refine ⟨filteredSchools_eq_filter schools f, ?_⟩
  rw [filteredSchools_eq_filter]
  exact List.filter_sublist schools

/-- C5: replacing the empty value of any one filter field by an arbitrary
value never increases the number of matching records. -/
theorem c5_filter_monotone (schools : List School) (f : FilterState)
    (fld : FilterField) (v : String) (h : f.fieldVal fld = "") :
    (filteredSchools schools (f.setField fld v)).length ≤
      (filteredSchools schools f).length := by
  rw [filteredSchools_eq_filter, filteredSchools_eq_filter]
  apply length_filter_mono
  intro s hs
  cases fld with
  | name =>
    simp only [FilterState.fieldVal] at h
    simp only [FilterState.setField, matchPred, Bool.and_eq_true, Bool.or_eq_true] at hs ⊢
    refine ⟨⟨Or.inl ?_, hs.1.2⟩, hs.2⟩
    rw [h]
    rfl
  | city =>
    simp only [FilterState.fieldVal] at h
    simp only [FilterState.setField, matchPred, Bool.and_eq_true, Bool.or_eq_true] at hs ⊢
    refine ⟨⟨hs.1.1, Or.inl ?_⟩, hs.2⟩
    rw [h]
    rfl
  | state =>
    simp only [FilterState.fieldVal] at h
    simp only [FilterState.setField, matchPred, Bool.and_eq_true, Bool.or_eq_true] at hs ⊢
    refine ⟨hs.1, Or.inl ?_⟩
    rw [h]
    rfl

/-- C5 witness: starting from the all-empty filter over a one-record set,
committing the name filter "ab" does not increase the result count. -/
theorem c5_witness :
    (filteredSchools [demoSchool] (FilterState.setField ⟨"", "", ""⟩ .name ("ab"))).length ≤
      (filteredSchools [demoSchool] ⟨"", "", ""⟩).length :=
  c5_filter_monotone [demoSchool] ⟨"", "", ""⟩ .name ("ab") (by rfl)

/-- C6: matching with all three filters empty returns the input sequence
unchanged. -/
theorem c6_empty_filters_identity (schools : List School) :
    filteredSchools schools ⟨"", "", ""⟩ = schools := rfl

/-- C10: a filter field whose text is only whitespace imposes no
constraint, exactly as if it were the empty string; and in general the
matching predicate compares against the untrimmed filter text (matchPred
lowercases but never trims it), so surrounding whitespace in a non-blank
filter is significant to the substring test. -/
theorem c10_blank_filter_no_constraint (schools : List School) (f : FilterState)
    (fld : FilterField) (w : String) (h : isBlank w = true) :
    filteredSchools schools (f.setField fld w) =
      filteredSchools schools (f.setField fld ("")) ∧
    filteredSchools schools f = schools.filter (matchPred f) := by
  refine ⟨?_, filteredSchools_eq_filter schools f⟩
  rw [filteredSchools_eq_filter, filteredSchools_eq_filter]
  apply List.filter_congr
  intro s _
  cases fld <;> simp [matchPred, FilterState.setField, h, isBlank_nil]

/-- C10 witness: a whitespace-only city filter behaves as the empty one
on a concrete record set. -/
theorem c10_witness :
    (filteredSchools [demoSchool] (FilterState.setField ⟨"a", "b", "c"⟩ .city (" ")) =
      filteredSchools [demoSchool] (FilterState.setField ⟨"a", "b", "c"⟩ .city (""))) ∧
    filteredSchools [demoSchool] ⟨"a", "b", "c"⟩ =
      [demoSchool].filter (matchPred ⟨"a", "b", "c"⟩) :=
  c10_blank_filter_no_constraint [demoSchool] ⟨"a", "b", "c"⟩ .city (" ") (by decide)

lemma foldl_insertSeen_sublist (l : List String) :
    ∀ acc : List String, (l.foldl insertSeen acc).Sublist (acc ++ l) := by
  induction l with
  | nil => intro acc; simp
  | cons x t ih =>
    intro acc
    refine (ih (insertSeen acc x)).trans ?_
    unfold insertSeen
    by_cases hx : x ∈ acc
    · simp only [hx, if_pos]
      exact List.Sublist.append_left (List.sublist_cons_self x t) acc
    · simp only [hx, if_neg, not_false_iff]
      rw [List.append_assoc, List.singleton_append]

lemma foldl_insertSeen_nodup (l : List String) :
    ∀ acc : List String, acc.Nodup → (l.foldl insertSeen acc).Nodup := by
  induction l with
  | nil => intro acc h; simpa using h
  | cons x t ih =>
    intro acc h
    apply ih
    unfold insertSeen
    by_cases hx : x ∈ acc
    · simpa [hx] using h
    · simp [hx, List.nodup_append, List.disjoint_singleton, h]

lemma uniqueValues_nodup (schools : List School) (fld : FilterField) :
    (uniqueValues schools fld).Nodup :=
  foldl_insertSeen_nodup _ [] List.nodup_nil

lemma uniqueValues_sublist (schools : List School) (fld : FilterField) :
    (uniqueValues schools fld).Sublist (schools.map (fun s => s.fieldVal fld)) := by
  simpa using foldl_insertSeen_sublist (schools.map (fun s => s.fieldVal fld)) []

/-- Walking the value list with Set insertion keeps the accumulator in
strictly increasing order of first-occurrence index: the generalized
invariant is that the accumulator's members are exactly the values of
the already-processed prefix and are already so ordered. -/
lemma foldl_insertSeen_pairwise_aux (v : List String) :
    ∀ (suf p acc : List String), v = p ++ suf →
    (∀ a, a ∈ acc ↔ a ∈ p) →
    acc.Pairwise (fun a b => v.indexOf a < v.indexOf b) →
    (suf.foldl insertSeen acc).Pairwise (fun a b => v.indexOf a < v.indexOf b) := by
  intro suf
  induction suf with
  | nil =>
    intro p acc hv hmem hpw
    simpa using hpw
  | cons x xs ih =>
    intro p acc hv hmem hpw
    have hstep : (x :: xs).foldl insertSeen acc = xs.foldl insertSeen (insertSeen acc x) :=
      rfl
    rw [hstep]
    apply ih (p ++ [x])
    · rw [hv, List.append_assoc, List.singleton_append]
    · intro a
      unfold insertSeen
      by_cases hx : x ∈ acc
      · simp only [hx, if_pos]
        rw [hmem a, List.mem_append, List.mem_singleton]
        exact ⟨Or.inl, fun h => h.elim id (fun he => he ▸ ((hmem x).mp hx))⟩
      · simp only [hx, if_neg, not_false_iff]
        simp [List.mem_append, hmem a]
    · unfold insertSeen
      by_cases hx : x ∈ acc
      · simpa [hx] using hpw
      · simp only [hx, if_neg, not_false_iff]
        rw [List.pairwise_append]
        refine ⟨hpw, List.pairwise_singleton _ x, ?_⟩
        intro a ha b hb
        rw [List.mem_singleton] at hb
        rw [hb]
        have hap : a ∈ p := (hmem a).mp ha
        have hxp : x ∉ p := fun hxp => hx ((hmem x).mpr hxp)
        have h1 : v.indexOf a < p.length := by
          rw [hv, List.indexOf_append_of_mem hap]
          exact lt_of_lt_of_le (List.indexOf_lt_length.mpr hap) le_rfl
        have h2 : v.indexOf x = p.length := by
          rw [hv, List.indexOf_append_of_not_mem hxp]
          simp [List.indexOf_cons_self]
        omega

/-- The first-seen dedup lists its values in strictly increasing order
of their first occurrence in the input. -/
lemma uniqueValues_pairwise (schools : List School) (fld : FilterField) :
    (uniqueValues schools fld).Pairwise
      (fun a b => (schools.map (fun s => s.fieldVal fld)).indexOf a <
        (schools.map (fun s => s.fieldVal fld)).indexOf b) :=
  foldl_insertSeen_pairwise_aux (schools.map (fun s => s.fieldVal fld))
    (schools.map (fun s => s.fieldVal fld)) [] []
    (List.nil_append (schools.map (fun s => s.fieldVal fld))).symm
    (by simp) List.Pairwise.nil

/-- C2: the suggestion list for a field has at most five entries, has no
duplicates, is a subsequence of the field's values over the record set,
its entries are listed in strictly increasing order of their first
occurrence in those values (first-seen order), every entry has the
lowercased draft text as a prefix of its own lowercased form, and an
empty draft text yields the empty list. -/
theorem c2_getSuggestions_sound (schools : List School) (tf : FilterState)
    (fld : FilterField) :
    (getSuggestions schools tf fld).length ≤ 5 ∧
    (getSuggestions schools tf fld).Nodup ∧
    (getSuggestions schools tf fld).Sublist (schools.map (fun s => s.fieldVal fld)) ∧
    (getSuggestions schools tf fld).Pairwise
      (fun a b => (schools.map (fun s => s.fieldVal fld)).indexOf a <
        (schools.map (fun s => s.fieldVal fld)).indexOf b) ∧
    (∀ x ∈ getSuggestions schools tf fld,
      x ∈ schools.map (fun s => s.fieldVal fld) ∧
      (jsToLower (tf.fieldVal fld)).toList <+: (jsToLower x).toList) ∧
    getSuggestions schools (tf.setField fld ("")) fld = [] := by
  have hsubu : (getSuggestions schools tf fld).Sublist (uniqueValues schools fld) := by
    unfold getSuggestions
    split
    · exact List.nil_sublist _
    · exact (List.take_sublist _ _).trans (List.filter_sublist _)
  have hsub : (getSuggestions schools tf fld).Sublist
      (schools.map (fun s => s.fieldVal fld)) :=
    hsubu.trans (uniqueValues_sublist schools fld)
  refine ⟨?_, ?_, hsub, List.Pairwise.sublist hsubu (uniqueValues_pairwise schools fld),
    ?_, ?_⟩
  · unfold getSuggestions
    split
    · simp
    · exact List.length_take_le 5 _
  · unfold getSuggestions
    split
    · exact List.nodup_nil
    · exact List.Nodup.sublist (List.take_sublist _ _)
        (List.Nodup.filter _ (uniqueValues_nodup schools fld))
  · intro x hx
    refine ⟨hsub.subset hx, ?_⟩
    revert hx
    unfold getSuggestions
    split
    · intro hx
      simp at hx
    · intro hx
      have hmem := List.mem_of_mem_take hx
      have hpred := (List.mem_filter.mp hmem).2
      unfold jsStartsWith at hpred
      exact List.isPrefixOf_iff_prefix.mp hpred
  · cases fld <;> rfl

/-- C7: the appended record carries id = current record count + 1 and
createdAt = the (non-empty) timestamp, every SchoolBase field of the
candidate is unchanged, the store grows by exactly that record, and in
particular a store of three records yields id = 4. -/
theorem c7_addSchool_assigns_id (stored : List School) (now : String)
    (data : SchoolBase) (h : now ≠ "") :
    (mockAPI.addSchool stored now data).1.id = stored.length + 1 ∧
    (mockAPI.addSchool stored now data).1.createdAt = now ∧
    (mockAPI.addSchool stored now data).1.createdAt ≠ "" ∧
    (mockAPI.addSchool stored now data).1.toSchoolBase = data ∧
    (mockAPI.addSchool stored now data).2 =
      stored ++ [(mockAPI.addSchool stored now data).1] ∧
    (stored.length = 3 → (mockAPI.addSchool stored now data).1.id = 4) := by
  refine ⟨rfl, rfl, h, rfl, rfl, ?_⟩
  intro h3
  simp [mockAPI.addSchool, h3]

/-- C7 witness: appending a valid candidate to a three-record store. -/
theorem c7_witness :
    (mockAPI.addSchool [demoSchool, demoSchool, demoSchool]
        ("2024-01-02T00:00:00.000Z") demoBase).1.id =
      [demoSchool, demoSchool, demoSchool].length + 1 ∧
    (mockAPI.addSchool [demoSchool, demoSchool, demoSchool]
        ("2024-01-02T00:00:00.000Z") demoBase).1.createdAt =
      "2024-01-02T00:00:00.000Z" ∧
    (mockAPI.addSchool [demoSchool, demoSchool, demoSchool]
        ("2024-01-02T00:00:00.000Z") demoBase).1.createdAt ≠ "" ∧
    (mockAPI.addSchool [demoSchool, demoSchool, demoSchool]
        ("2024-01-02T00:00:00.000Z") demoBase).1.toSchoolBase = demoBase ∧
    (mockAPI.addSchool [demoSchool, demoSchool, demoSchool]
        ("2024-01-02T00:00:00.000Z") demoBase).2 =
      [demoSchool, demoSchool, demoSchool] ++
        [(mockAPI.addSchool [demoSchool, demoSchool, demoSchool]
            ("2024-01-02T00:00:00.000Z") demoBase).1] ∧
    ([demoSchool, demoSchool, demoSchool].length = 3 →
      (mockAPI.addSchool [demoSchool, demoSchool, demoSchool]
          ("2024-01-02T00:00:00.000Z") demoBase).1.id = 4) :=
  c7_addSchool_assigns_id [demoSchool, demoSchool, demoSchool]
    ("2024-01-02T00:00:00.000Z") demoBase (by decide)

/-- C8: the upload gate sets the TooLarge image error exactly when the
file size exceeds 5,000,000 bytes, and the form data (in particular its
image field) is changed only when the gate passes, in which case the read
payload is attached; on rejection the candidate record is untouched. -/
theorem c8_image_gate (st : FormState) (fileSize : Nat) (payload : String) :
    ((handleImageChange fileSize payload st).errors.image = some tooLargeMsg ↔
      5000000 < fileSize) ∧
    (handleImageChange fileSize payload st).formData =
      (if 5000000 < fileSize then st.formData
       else { st.formData with image := some payload }) := by
  unfold handleImageChange
  by_cases h : 5000000 < fileSize
  · simp [h]
  · simp only [if_neg h]
    refine ⟨iff_of_false ?_ h, trivial⟩
    intro he
    have he2 : ("" : String) = tooLargeMsg := by
      simpa using he
    exact absurd he2 (by decide)

/-- C9: when validation passes and the gateway append fails, the caught
failure replaces the whole error object by the single non-field submit
error — every per-field error slot is none — and the form data is left
unchanged for a retry. -/
theorem c9_submit_failure (st : FormState)
    (h : (validateForm st.formData).noKeys = true) :
    (handleSubmit true st).errors =
      { emptyErrors with submit := some submitFailedMsg } ∧
    (handleSubmit true st).formData = st.formData ∧
    (handleSubmit true st).errors.name = none ∧
    (handleSubmit true st).errors.address = none ∧
    (handleSubmit true st).errors.city = none ∧
    (handleSubmit true st).errors.state = none ∧
    (handleSubmit true st).errors.contact = none ∧
    (handleSubmit true st).errors.email_id = none ∧
    (handleSubmit true st).errors.image = none ∧
    (handleSubmit true st).errors.submit = some submitFailedMsg := by
  unfold handleSubmit
  simp [h, emptyErrors]

/-- C9 witness: a concrete valid form whose submission hits a gateway
failure keeps its data and gets only the submit error. -/
theorem c9_witness :
    (handleSubmit true ⟨demoBase, emptyErrors, none⟩).errors =
      { emptyErrors with submit := some submitFailedMsg } ∧
    (handleSubmit true ⟨demoBase, emptyErrors, none⟩).formData = demoBase ∧
    (handleSubmit true ⟨demoBase, emptyErrors, none⟩).errors.name = none ∧
    (handleSubmit true ⟨demoBase, emptyErrors, none⟩).errors.address = none ∧
    (handleSubmit true ⟨demoBase, emptyErrors, none⟩).errors.city = none ∧
    (handleSubmit true ⟨demoBase, emptyErrors, none⟩).errors.state = none ∧
    (handleSubmit true ⟨demoBase, emptyErrors, none⟩).errors.contact = none ∧
    (handleSubmit true ⟨demoBase, emptyErrors, none⟩).errors.email_id = none ∧
    (handleSubmit true ⟨demoBase, emptyErrors, none⟩).errors.image = none ∧
    (handleSubmit true ⟨demoBase, emptyErrors, none⟩).errors.submit =
      some submitFailedMsg :=
  c9_submit_failure ⟨demoBase, emptyErrors, none⟩ (by decide)

/-- The shape the email regex describes, as an explicit decomposition:
the character list splits as local ++ "@" ++ mid ++ "." ++ tld with all
three parts non-empty and made only of characters in [^\s@]. -/
def EmailShape (s : String) : Prop :=
  ∃ l m t : List Char,
    s.toList = l ++ '@' :: (m ++ '.' :: t) ∧
    l ≠ [] ∧ m ≠ [] ∧ t ≠ [] ∧
    (∀ c ∈ l, charOk c = true) ∧ (∀ c ∈ m, charOk c = true) ∧
    (∀ c ∈ t, charOk c = true)

lemma drop_append_cons {α : Type} (l : List α) (a : α) (rest : List α) :
    (l ++ a :: rest).drop (l.length + 1) = rest := by
  rw [show l ++ a :: rest = (l ++ [a]) ++ rest by simp]
  rw [show l.length + 1 = (l ++ [a]).length by simp]
  exact List.drop_left _ _

lemma emailRegexTest_iff_shape (s : String) :
    emailRegexTest s = true ↔ EmailShape s := by
  constructor
  · intro h
    simp only [emailRegexTest, List.any_eq_true, List.mem_range, Bool.and_eq_true,
      decide_eq_true_eq, beq_iff_eq, List.all_eq_true] at h
    obtain ⟨i, hi, j, hj, hcond⟩ := h
    obtain ⟨⟨⟨⟨⟨⟨⟨h0i, hij⟩, hjn⟩, hat⟩, hdot⟩, hl⟩, hm⟩, ht⟩ := hcond
    have hin : i < s.toList.length := by omega
    have hjnn : j < s.toList.length := by omega
    have hat' : s.toList[i] = '@' := by
      rw [← List.getD_eq_getElem s.toList 'a' hin]; exact hat
    have hdot' : s.toList[j] = '.' := by
      rw [← List.getD_eq_getElem s.toList 'a' hjnn]; exact hdot
    have e4 : (s.toList.drop (i + 1)).drop (j - (i + 1)) = s.toList.drop j := by
      rw [List.drop_drop]
      congr 1
      omega
    refine ⟨s.toList.take i, (s.toList.drop (i + 1)).take (j - (i + 1)),
      s.toList.drop (j + 1), ?_, ?_, ?_, ?_, hl, hm, ht⟩
    · calc s.toList
          = s.toList.take i ++ s.toList.drop i := (List.take_append_drop i s.toList).symm
        _ = s.toList.take i ++ s.toList[i] :: s.toList.drop (i + 1) := by
            rw [List.drop_eq_getElem_cons hin]
        _ = s.toList.take i ++ '@' :: s.toList.drop (i + 1) := by rw [hat']
        _ = s.toList.take i ++ '@' ::
              ((s.toList.drop (i + 1)).take (j - (i + 1)) ++
                (s.toList.drop (i + 1)).drop (j - (i + 1))) := by
            rw [List.take_append_drop]
        _ = s.toList.take i ++ '@' ::
              ((s.toList.drop (i + 1)).take (j - (i + 1)) ++ s.toList.drop j) := by
            rw [e4]
        _ = s.toList.take i ++ '@' ::
              ((s.toList.drop (i + 1)).take (j - (i + 1)) ++
                (s.toList[j] :: s.toList.drop (j + 1))) := by
            rw [List.drop_eq_getElem_cons hjnn]
        _ = s.toList.take i ++ '@' ::
              ((s.toList.drop (i + 1)).take (j - (i + 1)) ++
                ('.' :: s.toList.drop (j + 1))) := by
            rw [hdot']
    · apply List.ne_nil_of_length_pos
      rw [List.length_take]
      exact lt_min h0i (by omega)
    · apply List.ne_nil_of_length_pos
      rw [List.length_take]
      refine lt_min (by omega) ?_
      rw [List.length_drop]
      omega
    · apply List.ne_nil_of_length_pos
      rw [List.length_drop]
      omega
  · rintro ⟨l, m, t, hs, hl0, hm0, ht0, hl, hm, ht⟩
    have hlp : 0 < l.length := List.length_pos.mpr hl0
    have hmp : 0 < m.length := List.length_pos.mpr hm0
    have htp : 0 < t.length := List.length_pos.mpr ht0
    have hn : s.toList.length = l.length + m.length + t.length + 2 := by
      rw [hs]
      simp [List.length_append, List.length_cons]
      omega
    simp only [emailRegexTest, List.any_eq_true, List.mem_range, Bool.and_eq_true,
      decide_eq_true_eq, beq_iff_eq, List.all_eq_true]
    refine ⟨l.length, by omega, l.length + 1 + m.length, by omega,
      ⟨⟨⟨⟨⟨⟨⟨by omega, by omega⟩, by omega⟩, ?_⟩, ?_⟩, ?_⟩, ?_⟩, ?_⟩⟩
    · rw [hs, List.getD_append_right l _ 'a' l.length (le_refl _)]
      simp
    · rw [hs, List.getD_append_right l _ 'a' (l.length + 1 + m.length) (by omega)]
      rw [show l.length + 1 + m.length - l.length = m.length + 1 by omega]
      rw [List.getD_cons_succ]
      rw [List.getD_append_right m _ 'a' m.length (le_refl _)]
      simp
    · rw [hs, List.take_left]
      exact hl
    · rw [hs, drop_append_cons]
      rw [show l.length + 1 + m.length - (l.length + 1) = m.length by omega]
      rw [List.take_left]
      exact hm
    · rw [hs, show l.length + 1 + m.length + 1 = (l.length + 1) + (m.length + 1) by omega]
      rw [← List.drop_drop]
      rw [drop_append_cons, drop_append_cons]
      exact ht

/-- Spec-side acceptability predicate following the claim's words: the
value has a single at sign with non-empty parts on both sides and a dot
somewhere after the at sign. -/
def claimEmailOk (s : String) : Bool :=
  (s.toList.count '@' == 1) &&
  !(s.toList.takeWhile (fun c => !(c == '@'))).isEmpty &&
  !((s.toList.dropWhile (fun c => !(c == '@'))).drop 1).isEmpty &&
  ((s.toList.dropWhile (fun c => !(c == '@'))).drop 1).contains '.'

/-- A concrete candidate record whose email is "x@.y". -/
def badEmailForm : SchoolBase :=
  { name := "A", address := "B", city := "C", state := "D",
    contact := "0123456789", email_id := "x@.y", image := some ("img") }

/-- C3 counterexample: "x@.y" has a single "@" with non-empty parts on
both sides and a "." after the "@", so the claim predicts no error; the
code's regex demands a non-empty run before the "." and reports
InvalidFormat. -/
theorem c3_counterexample :
    claimEmailOk ("x@.y") = true ∧
    (validateForm badEmailForm).email_id = some emailFormatMsg := by decide

/-- C3 (amended): validation reports an email error iff the value trims
to empty (then Required) or it fails the regex shape — a decomposition
local@mid.tld with non-empty parts made only of non-whitespace, non-"@"
characters (then InvalidFormat); a value of that shape with non-blank
text yields no error. -/
theorem c3_email_validation (fd : SchoolBase) :
    ((validateForm fd).email_id = none ↔
      isBlank fd.email_id = false ∧ EmailShape fd.email_id) ∧
    (isBlank fd.email_id = true →
      (validateForm fd).email_id = some emailRequiredMsg) ∧
    (isBlank fd.email_id = false → ¬ EmailShape fd.email_id →
      (validateForm fd).email_id = some emailFormatMsg) := by
  have hv : (validateForm fd).email_id =
      (if isBlank fd.email_id then some emailRequiredMsg
       else if emailRegexTest fd.email_id then none else some emailFormatMsg) := rfl
  rw [hv]
  by_cases hb : isBlank fd.email_id
  · simp [hb]
  · have hb' : isBlank fd.email_id = false := by simpa using hb
    by_cases hr : emailRegexTest fd.email_id
    · have hshape := (emailRegexTest_iff_shape fd.email_id).mp hr
      simp [hb', hr, hshape]
    · have hr' : emailRegexTest fd.email_id = false := by simpa using hr
      have hnshape : ¬ EmailShape fd.email_id :=
        fun hsh => hr ((emailRegexTest_iff_shape fd.email_id).mpr hsh)
      simp [hb', hr', hnshape]

/-- Exactly-ten-decimal-digits, as an explicit property. -/
def TenDigitString (s : String) : Prop :=
  s.toList.length = 10 ∧ ∀ c ∈ s.toList, c.isDigit = true

lemma isTenDigits_iff (s : String) : isTenDigits s = true ↔ TenDigitString s := by
  unfold isTenDigits TenDigitString
  simp [List.all_eq_true]

lemma isDigit_not_whitespace (c : Char) (h : c.isDigit = true) :
    c.isWhitespace = false := by
  by_contra hw
  have hw' : c.isWhitespace = true := by simpa using hw
  simp only [Char.isWhitespace, Bool.or_eq_true, decide_eq_true_eq] at hw'
  rcases hw' with ((h1 | h1) | h1) | h1 <;> (subst h1; exact absurd h (by decide))

lemma tenDigit_not_blank (s : String) (h : TenDigitString s) :
    isBlank s = false := by
  rcases h with ⟨hlen, hdig⟩
  unfold isBlank
  cases hcs : s.toList with
  | nil => rw [hcs] at hlen; simp at hlen
  | cons c rest =>
    have hc : c.isDigit = true := hdig c (by rw [hcs]; exact List.mem_cons_self c rest)
    have hw := isDigit_not_whitespace c hc
    simp [hcs, hw]

/-- A concrete candidate record whose contact is a single space. -/
def blankContactForm : SchoolBase :=
  { name := "A", address := "B", city := "C", state := "D",
    contact := " ", email_id := "a@b.c", image := some ("img") }

/-- C4 counterexample: the contact value " " is non-empty and is not ten
digits, so the claim predicts the InvalidFormat error; the code trims
first and reports Required instead. -/
theorem c4_counterexample :
    (" " : String) ≠ "" ∧
    isTenDigits (" ") = false ∧
    (validateForm blankContactForm).contact = some contactRequiredMsg ∧
    contactRequiredMsg ≠ contactFormatMsg := by decide

/-- C4 (amended): validation reports a contact error iff the value is
not exactly ten decimal digits; the error is Required when the value
trims to empty (not only when it is the empty string) and InvalidFormat
otherwise. -/
theorem c4_contact_validation (fd : SchoolBase) :
    ((validateForm fd).contact = none ↔ TenDigitString fd.contact) ∧
    (isBlank fd.contact = true →
      (validateForm fd).contact = some contactRequiredMsg) ∧
    (isBlank fd.contact = false → ¬ TenDigitString fd.contact →
      (validateForm fd).contact = some contactFormatMsg) := by
  have hv : (validateForm fd).contact =
      (if isBlank fd.contact then some contactRequiredMsg
       else if isTenDigits fd.contact then none else some contactFormatMsg) := rfl
  rw [hv]
  by_cases hb : isBlank fd.contact
  · have hnd : ¬ TenDigitString fd.contact := fun hd =>
      absurd hb (by simp [tenDigit_not_blank fd.contact hd])
    simp [hb, hnd]
  · have hb' : isBlank fd.contact = false := by simpa using hb
    by_cases hd : isTenDigits fd.contact
    · have hten := (isTenDigits_iff fd.contact).mp hd
      simp [hb', hd, hten]
    · have hd' : isTenDigits fd.contact = false := by simpa using hd
      have hnd : ¬ TenDigitString fd.contact :=
        fun hten => hd ((isTenDigits_iff fd.contact).mpr hten)
      simp [hb', hd', hnd]
